import Mathlib

/-!
Verification of the `wallet-monitor` orchestrator (`src/multi-wallet-exporter.ts`).

The file shallowly embeds the `WalletManager` orchestrator class and the
`MultiWalletExporter` error-counter handler.  Asynchronous JS methods are
embedded as pure functions returning `Except String α` (a rejected promise or
a synchronous throw both become `Except.error`); the mutable `this` state is
threaded explicitly.  JS `Record`s and `Map`s are embedded as association
lists in insertion order, which is the order `Object.entries` iterates.

Modules of this repository that are imported by `multi-wallet-exporter.ts`
but are not under `src/` (`./chain-wallet-manager`, `./utils`, `./wallets`,
`./wallet-exporter`, `./price-assistant/*`) are modelled from the spec; each
such definition carries a doc comment starting with `Modelled from the spec:`.
-/

/-- Association-list lookup in insertion order; embeds both the JS property
read `this.managers[chainName]` on a plain object and `Map.prototype.get`. -/
def alookup {β : Type} (c : String) : List (String × β) → Option β
  | [] => none
  | (k, b) :: rest => if k = c then some b else alookup c rest

/-- Boolean list membership used by the lock-registry model. -/
def memb (a : String) : List String → Bool
  | [] => false
  | x :: xs => if x = a then true else memb a xs

/-- Removes every occurrence of an address from the held-lock list. -/
def removeAddr (a : String) : List String → List String
  | [] => []
  | x :: xs => if x = a then removeAddr a xs else x :: removeAddr a xs

/-- Replaces the value stored under a key, keeping insertion order; embeds the
in-place mutation `this.managers[chainName] = ...` / `Map.prototype.set` on a
key that may or may not be present (appends when absent). -/
def mapSet {β : Type} (k : String) (v : β) : List (String × β) → List (String × β)
  | [] => [(k, v)]
  | (k2, v2) :: rest => if k2 = k then (k, v) :: rest else (k2, v2) :: mapSet k v rest

/-- First configured address that is not currently held, if any. -/
def findFree (locked : List String) : List String → Option String
  | [] => none
  | a :: rest => if memb a locked then findFree locked rest else some a

/-- Balance record as produced by the wallet drivers
(`WalletBalance` from `./wallets`, fields per the spec data model). -/
structure WalletBalance where
  address : String
  symbol : String
  isNative : Bool
  tokenAddress : Option String
  rawBalance : String
  formattedBalance : String
deriving DecidableEq, Repr

/-- Modelled from the spec: `WalletConfigSchema` from `./wallets` (not under
`src/`): a wallet has an address and a list of expected tokens; its
driver-private configuration is never inspected by the core and is omitted. -/
structure WalletConfig where
  address : String
  tokens : List String
deriving DecidableEq, Repr

/-- Token entry of `WalletPriceFeedConfigSchema.supportedTokens`. -/
structure TokenInfo where
  tokenContract : String
  chainId : Nat
  chainName : String
  coingeckoId : String
  symbol : Option String
deriving DecidableEq, Repr

/-- Shape shared by `WalletPriceFeedOptionsSchema.scheduled` and
`WalletBalanceConfigSchema.scheduled`. -/
structure ScheduledOptionConfig where
  enabled : Bool
  interval : Option Nat
deriving DecidableEq, Repr

/-- `WalletPriceFeedOptionsSchema`: selects None / OnDemand / Scheduled. -/
structure WalletPriceFeedOptions where
  enabled : Bool
  scheduled : Option ScheduledOptionConfig
deriving DecidableEq, Repr

/-- `WalletBalanceConfigSchema` (pass-through to the chain manager). -/
structure WalletBalanceConfig where
  enabled : Bool
  scheduled : Option ScheduledOptionConfig
deriving DecidableEq, Repr

/-- `WalletRebalancingConfigSchema` (pass-through to the chain manager). -/
structure WalletRebalancingConfig where
  enabled : Bool
  strategy : Option String
  interval : Option Nat
  minBalanceThreshold : Option Nat
  maxGasPrice : Option Nat
  gasLimit : Option Nat
deriving DecidableEq, Repr

/-- `WalletPriceFeedConfigSchema`. -/
structure WalletPriceFeedConfig where
  supportedTokens : List TokenInfo
deriving DecidableEq, Repr

/-- `WalletManagerChainConfigSchema`: one entry of the configuration record.
The `chainConfig` field is `z.any()` that the orchestrator only forwards;
it is embedded as an uninterpreted optional string. -/
structure WalletManagerChainConfig where
  network : Option String
  chainConfig : Option String
  rebalance : Option WalletRebalancingConfig
  walletBalanceConfig : Option WalletBalanceConfig
  wallets : List WalletConfig
  priceFeedConfig : Option WalletPriceFeedConfig
deriving DecidableEq, Repr

/-- `WalletManagerOptionsSchema` as the constructor actually receives it: the
constructor reads the raw `options` object and never runs the zod schema, so
`failOnInvalidChain` is `Option Bool` — `none` embeds the JS `undefined` that
`options?.failOnInvalidChain` yields when the field is absent (the schema
default `true` of line 226 would only be applied by `.parse`, which the
constructor does not call).  `logger`, `logLevel` and `metrics` only affect
logging and the metrics exporter and are omitted. -/
structure WalletManagerOptions where
  balancePollInterval : Option Nat
  failOnInvalidChain : Option Bool
  failOnInvalidTokens : Option Bool
  priceFeedOptions : Option WalletPriceFeedOptions
deriving DecidableEq, Repr

/-- Modelled from the spec: `KNOWN_CHAINS` from `./wallets` (not under
`src/`): a closed, compile-time known set of chain names, each with a default
network.  The exact membership of the set is immaterial to the claims; what
matters is that it is fixed and name-indexed. -/
def KNOWN_CHAINS : List (String × String) :=
  [("ethereum", "mainnet"), ("solana", "mainnet-beta"), ("avalanche", "mainnet"),
   ("bsc", "mainnet"), ("polygon", "mainnet"), ("sui", "mainnet"), ("klaytn", "mainnet")]

/-- Modelled from the spec: `isChain` from `./wallets` (not under `src/`):
membership in the closed known-chain set. -/
def isChain (s : String) : Bool := (alookup s KNOWN_CHAINS).isSome

/-- `getDefaultNetwork` (source line 249): `KNOWN_CHAINS[chainName]!.defaultNetwork`. -/
def getDefaultNetwork (chainName : String) : String :=
  (alookup chainName KNOWN_CHAINS).getD ""

/-- Price feed instance (`PriceFeed = ScheduledPriceFeed | OnDemandPriceFeed`).
Modelled from the spec: the two classes live under `./price-assistant` (not
under `src/`); each instance is identified by the configuration it was
constructed with, mirroring the constructor arguments at source lines 286-294
(the scheduled variant receives the spread of `options.priceFeedOptions`). -/
inductive PriceFeed where
  | scheduled (supportedTokens : List TokenInfo) (options : WalletPriceFeedOptions)
  | onDemand (supportedTokens : List TokenInfo)
deriving DecidableEq, Repr

/-- Modelled from the spec: `preparePriceFeedConfig` from
`./price-assistant/helper` (not under `src/`): derives the tokens to warm
from the union of all chains' `priceFeedConfig.supportedTokens`. -/
def preparePriceFeedConfig (config : List (String × WalletManagerChainConfig)) :
    List TokenInfo :=
  config.flatMap (fun p => match p.2.priceFeedConfig with
    | some pf => pf.supportedTokens
    | none => [])

/-- Driver capability surface consumed by one chain manager (spec section 6).
Modelled from the spec: the concrete drivers are external; each field holds
the outcome the driver would produce for the corresponding query. -/
structure Driver where
  getBlockHeight : Except String Nat
  pullBalances : Except String (List (String × List WalletBalance))
  pullAtHeight : Option Nat → List (String × List WalletBalance)

/-- Modelled from the spec: `ChainWalletManager` from `./chain-wallet-manager`
(not under `src/`).  Owns one (chain, network): the in-memory balance table,
the per-address lock registry (`locked` holds the currently held addresses)
and the driver.  The configuration fields mirror `chainManagerConfig` built at
source lines 310-319. -/
structure ChainWalletManager where
  chainName : String
  network : String
  rebalance : Option WalletRebalancingConfig
  walletOptions : Option String
  walletBalanceConfig : Option WalletBalanceConfig
  balancePollInterval : Option Nat
  failOnInvalidTokens : Bool
  wallets : List WalletConfig
  priceFeed : Option PriceFeed
  balances : List (String × List WalletBalance)
  locked : List String
  driver : Driver
  started : Bool

/-- `WalletExecuteOptions` from `./chain-wallet-manager`. -/
structure WalletExecuteOptions where
  waitToAcquireTimeout : Option Nat
  leaseTimeout : Option Nat
deriving DecidableEq, Repr

/-- `WalletInterface` handed to `withWallet` executors. -/
structure WalletInterface where
  address : String
deriving DecidableEq, Repr

/-- Modelled from the spec: `ChainWalletManager.acquireLock` (module
`./chain-wallet-manager`, not under `src/`): blocks until some wallet address
is free or the wait times out; in this timeless embedding the call succeeds
exactly when a free address exists and fails with the acquire-timeout error
otherwise.  Per the spec and the doc comment of `withWallet` (source lines
439-447) there is no enforcement of `leaseTimeout`, so `opts` does not
influence the outcome. -/
def ChainWalletManager.acquireLock (m : ChainWalletManager)
    (_opts : WalletExecuteOptions) :
    Except String (WalletInterface × ChainWalletManager) :=
  match findFree m.locked (m.wallets.map (fun w => w.address)) with
  | some a => Except.ok ({ address := a }, { m with locked := a :: m.locked })
  | none => Except.error "Timeout to acquire the lock"

/-- Modelled from the spec: `ChainWalletManager.releaseLock` (module
`./chain-wallet-manager`, not under `src/`): frees the address, failing with
the not-held error when the address is not currently held. -/
def ChainWalletManager.releaseLock (m : ChainWalletManager) (addr : String) :
    Except String ChainWalletManager :=
  if memb addr m.locked then Except.ok { m with locked := removeAddr addr m.locked }
  else Except.error "Lock is not held"

/-- Modelled from the spec: `ChainWalletManager.getBalances` (module
`./chain-wallet-manager`, not under `src/`): returns the current in-memory
snapshot, performing no driver I/O. -/
def ChainWalletManager.getBalances (m : ChainWalletManager) :
    List (String × List WalletBalance) := m.balances

/-- Modelled from the spec: `ChainWalletManager.getBlockHeight` (module
`./chain-wallet-manager`, not under `src/`): delegates to the driver. -/
def ChainWalletManager.getBlockHeight (m : ChainWalletManager) : Except String Nat :=
  m.driver.getBlockHeight

/-- Modelled from the spec: `ChainWalletManager.pullBalances` (module
`./chain-wallet-manager`, not under `src/`): forces one driver refresh and
returns the resulting snapshot. -/
def ChainWalletManager.pullBalances (m : ChainWalletManager) :
    Except String (List (String × List WalletBalance)) := m.driver.pullBalances

/-- Modelled from the spec: `ChainWalletManager.pullBalancesAtBlockHeight`
(module `./chain-wallet-manager`, not under `src/`): queries the driver
against a specific block height (`none` embeds the JS `undefined` the
orchestrator passes when the heights record lacks the chain) and does not
update the persistent snapshot — the second component is the manager state
after the call. -/
def ChainWalletManager.pullBalancesAtBlockHeight (m : ChainWalletManager)
    (blockHeight : Option Nat) :
    List (String × List WalletBalance) × ChainWalletManager :=
  (m.driver.pullAtHeight blockHeight, m)

/-- Modelled from the spec: `mapConcurrent` from `./utils` (not under
`src/`): applies the per-element operation across the list with bounded
concurrency and fails the whole call on the first error.  The concurrency
bound (third argument; `none` means the configuration-defined default, the
call sites that omit it) has no effect on the value in this sequential
embedding, so the per-element results are computed in list order. -/
def mapConcurrent {A B : Type} (f : A → Except String B) (_concurrency : Option Nat) :
    List A → Except String (List B)
  | [] => Except.ok []
  | x :: xs =>
    match f x with
    | Except.error e => Except.error e
    | Except.ok b =>
      match mapConcurrent f _concurrency xs with
      | Except.error e => Except.error e
      | Except.ok bs => Except.ok (b :: bs)

/-- Result of an orchestrator fanout, instrumented with the concurrency bound
each `mapConcurrent` invocation was given (`none` = the default bound from
the configuration), in call order.  The instrumentation records only which
bound the source passes; it does not change any value. -/
structure Fx (A : Type) where
  calls : List (Option Nat)
  value : Except String A

/-- Wraps one `mapConcurrent` call into an instrumented fanout result. -/
def mapConcurrentFx {A B : Type} (f : A → Except String B) (c : Option Nat)
    (xs : List A) : Fx (List B) :=
  { calls := [c], value := mapConcurrent f c xs }

/-- Orchestrator state: the manager record `this.managers`, in insertion
order of the configuration (`Record<ChainName, ChainWalletManager>`). -/
structure WalletManager where
  managers : List (String × ChainWalletManager)

/-- Replaces the chain's manager in the record (the in-place mutation the JS
methods perform through `this.managers[chainName]`); a missing key is left
unchanged. -/
def updateManager (ms : List (String × ChainWalletManager)) (c : String)
    (m : ChainWalletManager) : List (String × ChainWalletManager) :=
  match ms with
  | [] => []
  | (k, m2) :: rest => if k = c then (k, m) :: rest else (k, m2) :: updateManager rest c m

/-- `WalletManager.acquireLock` (source lines 412-429): looks the chain up in
`this.managers`, throws the no-wallets-configured error when absent, and
otherwise delegates to the chain manager (the exporter metric calls are
observational only and omitted). -/
def WalletManager.acquireLock (wm : WalletManager) (chainName : String)
    (opts : WalletExecuteOptions) :
    Except String (WalletInterface × WalletManager) :=
  match alookup chainName wm.managers with
  | none => Except.error ("No wallets configured for chain: " ++ chainName)
  | some chainManager =>
    match chainManager.acquireLock opts with
    | Except.ok (wallet, cm2) =>
      Except.ok (wallet, { wm with managers := updateManager wm.managers chainName cm2 })
    | Except.error e => Except.error e

/-- `WalletManager.releaseLock` (source lines 431-437). -/
def WalletManager.releaseLock (wm : WalletManager) (chainName : String)
    (address : String) : Except String WalletManager :=
  match alookup chainName wm.managers with
  | none => Except.error ("No wallets configured for chain: " ++ chainName)
  | some chainManager =>
    match chainManager.releaseLock address with
    | Except.ok cm2 =>
      Except.ok { wm with managers := updateManager wm.managers chainName cm2 }
    | Except.error e => Except.error e

/-- `WalletManager.withWallet` (source lines 448-460): acquire, run the
executor, and release in a `finally` block.  The executor result (normal or
thrown) is paired with the orchestrator state after the call; when the
`finally` release itself throws, its error supersedes, as in JS. -/
def WalletManager.withWallet (wm : WalletManager) (chainName : String)
    (fn : WalletInterface → Except String Unit) (opts : WalletExecuteOptions) :
    Except String Unit × WalletManager :=
  match wm.acquireLock chainName opts with
  | Except.error e => (Except.error e, wm)
  | Except.ok (wallet, wm1) =>
    let r := fn wallet
    match wm1.releaseLock chainName wallet.address with
    | Except.ok wm2 => (r, wm2)
    | Except.error e2 => (Except.error e2, wm1)

/-- `WalletManager.mapToChains` (source lines 462-474): fans the per-chain
operation out over `Object.entries(this.managers)` through `mapConcurrent`
with the concurrency argument omitted (the default bound), collecting the
results keyed by chain. -/
def WalletManager.mapToChains {T : Type} (wm : WalletManager)
    (method : String → ChainWalletManager → Except String T) :
    Fx (List (String × T)) :=
  mapConcurrentFx
    (fun p => match method p.1 p.2 with
      | Except.ok t => Except.ok (p.1, t)
      | Except.error e => Except.error e)
    none wm.managers

/-- `WalletManager.getAllBalances` (source lines 477-483): per-chain
in-memory snapshots via `getBalances`, no driver I/O. -/
def WalletManager.getAllBalances (wm : WalletManager) :
    Fx (List (String × List (String × List WalletBalance))) :=
  wm.mapToChains (fun _ manager => Except.ok manager.getBalances)

/-- `WalletManager.pullBalances` (source lines 486-492): per-chain driver
refresh through the default-bound fanout. -/
def WalletManager.pullBalances (wm : WalletManager) :
    Fx (List (String × List (String × List WalletBalance))) :=
  wm.mapToChains (fun _ manager => manager.pullBalances)

/-- `WalletManager.getBlockHeight` (source lines 494-500). -/
def WalletManager.getBlockHeight (wm : WalletManager) (chainName : String) :
    Except String Nat :=
  match alookup chainName wm.managers with
  | none => Except.error ("No wallets configured for chain: " ++ chainName)
  | some manager => manager.getBlockHeight

/-- `WalletManager.getChainBalances` (source lines 563-569). -/
def WalletManager.getChainBalances (wm : WalletManager) (chainName : String) :
    Except String (List (String × List WalletBalance)) :=
  match alookup chainName wm.managers with
  | none => Except.error ("No wallets configured for chain: " ++ chainName)
  | some manager => Except.ok manager.getBalances

/-- `WalletManager.validateBlockHeightByChain` (source lines 503-511): every
chain key of the given record must be present in `this.managers`. -/
def WalletManager.validateBlockHeightByChain (wm : WalletManager) :
    List (String × Nat) → Except String Unit
  | [] => Except.ok ()
  | (chain, _) :: rest =>
    match alookup chain wm.managers with
    | none => Except.error ("No wallets configured for chain: " ++ chain)
    | some _ => wm.validateBlockHeightByChain rest

/-- `WalletManager.getBlockHeightForAllSupportedChains` (source lines
513-536): fans out `manager.getBlockHeight()` over all managers with
`requiredConcurrency = Object.keys(this.managers).length`; a per-chain
failure is wrapped with the chain name and rejects the whole call. -/
def WalletManager.getBlockHeightForAllSupportedChains (wm : WalletManager) :
    Fx (List (String × Nat)) :=
  mapConcurrentFx
    (fun p => match p.2.getBlockHeight with
      | Except.ok blockHeight => Except.ok (p.1, blockHeight)
      | Except.error err =>
        Except.error ("No block height found for chain: " ++ p.1 ++ ", error: " ++ err))
    (some wm.managers.length) wm.managers

/-- Per-chain fanout of `pullBalancesAtBlockHeight` at the heights record
(source lines 549-558): each manager is queried at `blockHeightPerChain[chainName]`,
which is `undefined` (here `none`) when the record lacks the chain. -/
def WalletManager.fanoutAtHeights (wm : WalletManager)
    (blockHeightPerChain : List (String × Nat)) :
    Fx (List (String × List (String × List WalletBalance))) :=
  mapConcurrentFx
    (fun p =>
      Except.ok (p.1, (p.2.pullBalancesAtBlockHeight (alookup p.1 blockHeightPerChain)).1))
    none wm.managers

/-- `WalletManager.pullBalancesAtBlockHeight` (source lines 539-561): with a
heights record, validate its keys then fan out at those heights; without one,
first fetch all heights via `getBlockHeightForAllSupportedChains` and fan out
at the result.  Returns a fresh mapping; manager snapshots are untouched. -/
def WalletManager.pullBalancesAtBlockHeight (wm : WalletManager)
    (blockHeightByChain : Option (List (String × Nat))) :
    Fx (List (String × List (String × List WalletBalance))) :=
  match blockHeightByChain with
  | some b =>
    match wm.validateBlockHeightByChain b with
    | Except.error e => { calls := [], value := Except.error e }
    | Except.ok _ => wm.fanoutAtHeights b
  | none =>
    let g := wm.getBlockHeightForAllSupportedChains
    match g.value with
    | Except.error e => { calls := g.calls, value := Except.error e }
    | Except.ok heights =>
      let r := wm.fanoutAtHeights heights
      { calls := g.calls ++ r.calls, value := r.value }

/-- Events emitted by one `ChainWalletManager` (spec section 6; handler
registrations at source lines 327-388). -/
inductive ChainEvent where
  | balances (newBalances previousBalances : List WalletBalance)
  | error (err : String)
  | rebalanceStarted (strategy : String) (instructionCount : Nat)
  | rebalanceFinished (strategy : String) (receiptCount : Nat)
  | rebalanceError (err : String) (strategy : String)
  | activeWalletsCount (chainName network : String) (count : Nat)
  | walletsLockPeriod (chainName network walletAddress : String) (lockTime : Nat)
deriving DecidableEq, Repr

/-- Events the orchestrator re-emits on its own bus (`this.emitter.emit`,
source lines 329 and 338-344). -/
inductive OrchEvent where
  | balances (chainName network : String)
      (newBalances previousBalances : List WalletBalance)
  | error (err : String) (chainName : String)
deriving DecidableEq, Repr

/-- Event wiring the constructor installs for one chain (source lines
327-388): a `balances` chain event is re-emitted as
`balances(chainName, network, new, previous)` and an `error` chain event as
`error(error, chainName)`; the remaining chain events reach only the logger
and the metrics exporter, emitting nothing on the orchestrator bus. -/
def wireChainEvent (chainName network : String) : ChainEvent → List OrchEvent
  | ChainEvent.balances n o => [OrchEvent.balances chainName network n o]
  | ChainEvent.error e => [OrchEvent.error e chainName]
  | _ => []

/-- Price-feed selection of the constructor (source lines 278-296):
`isPriceFeedEnabled = options?.priceFeedOptions?.enabled`; when truthy, a
`ScheduledPriceFeed` if `options?.priceFeedOptions?.scheduled?.enabled` is
truthy, else an `OnDemandPriceFeed`; otherwise no instance. -/
def selectPriceFeed (config : List (String × WalletManagerChainConfig))
    (options : Option WalletManagerOptions) : Option PriceFeed :=
  match options.bind (fun o => o.priceFeedOptions) with
  | none => none
  | some pfo =>
    if pfo.enabled then
      if (match pfo.scheduled with | some s => s.enabled | none => false) then
        some (PriceFeed.scheduled (preparePriceFeedConfig config) pfo)
      else
        some (PriceFeed.onDemand (preparePriceFeedConfig config))
    else none

/-- Modelled from the spec: the driver a freshly constructed
`ChainWalletManager` wires up internally (module `./chain-wallet-manager`,
not under `src/`); its contents are irrelevant to the constructor claims,
and the runtime theorems quantify over arbitrary drivers. -/
def initialDriver : Driver :=
  { getBlockHeight := Except.error "not connected",
    pullBalances := Except.error "not connected",
    pullAtHeight := fun _ => [] }

/-- Chain manager construction of the loop body (source lines 308-325),
with `chainManagerConfig` built field by field as at lines 310-319 and the
shared price feed passed as third constructor argument. -/
def mkChainManager (chainName network : String)
    (chainConfig : WalletManagerChainConfig)
    (balancePollInterval : Option Nat) (failOnInvalidTokens : Bool)
    (priceFeedInstance : Option PriceFeed) : ChainWalletManager :=
  { chainName := chainName,
    network := network,
    rebalance := chainConfig.rebalance,
    walletOptions := chainConfig.chainConfig,
    walletBalanceConfig := chainConfig.walletBalanceConfig,
    balancePollInterval := balancePollInterval,
    failOnInvalidTokens := failOnInvalidTokens,
    wallets := chainConfig.wallets,
    priceFeed := priceFeedInstance,
    balances := [],
    locked := [],
    driver := initialDriver,
    started := true }

/-- Result of the `WalletManager` constructor: the manager record, the shared
price feed, the warnings logged for skipped chains, and the (chain, network)
pairs whose events were wired (in wiring order); `started := true` on every
constructed manager records the `chainManager.start()` call at line 392. -/
structure WalletManagerState where
  managers : List (String × ChainWalletManager)
  priceFeed : Option PriceFeed
  warnings : List String
  wired : List (String × String)

/-- Constructor loop over `Object.entries(config)` (source lines 298-393):
unknown chain names throw when `failOnInvalidChain` is truthy and are
logged and skipped otherwise; valid chains get a manager built with the
shared price feed, wired, stored in `this.managers` and started. -/
def buildManagers (priceFeedInstance : Option PriceFeed)
    (failOnInvalidChain : Bool) (balancePollInterval : Option Nat)
    (failOnInvalidTokens : Bool) :
    List (String × WalletManagerChainConfig) →
    Except String (List (String × ChainWalletManager) × List String × List (String × String))
  | [] => Except.ok ([], [], [])
  | (chainName, chainConfig) :: rest =>
    if isChain chainName then
      let network := chainConfig.network.getD (getDefaultNetwork chainName)
      let chainManager := mkChainManager chainName network chainConfig
        balancePollInterval failOnInvalidTokens priceFeedInstance
      match buildManagers priceFeedInstance failOnInvalidChain
          balancePollInterval failOnInvalidTokens rest with
      | Except.ok (ms, ws, wires) =>
        Except.ok ((chainName, chainManager) :: ms, ws, (chainName, network) :: wires)
      | Except.error e => Except.error e
    else
      if failOnInvalidChain then
        Except.error ("Invalid chain name: " ++ chainName)
      else
        match buildManagers priceFeedInstance failOnInvalidChain
            balancePollInterval failOnInvalidTokens rest with
        | Except.ok (ms, ws, wires) =>
          Except.ok (ms, ("Invalid chain name: " ++ chainName) :: ws, wires)
        | Except.error e => Except.error e

/-- `WalletManager` constructor (source lines 263-394).  The raw option reads
mirror the source: `options?.failOnInvalidChain` is truthy only when the
field is present and `true` (the zod default is never applied because the
constructor does not parse), and `options?.failOnInvalidTokens ?? true`
defaults to `true` through the nullish coalescing at line 318. -/
def WalletManager.construct (config : List (String × WalletManagerChainConfig))
    (options : Option WalletManagerOptions) : Except String WalletManagerState :=
  let priceFeedInstance := selectPriceFeed config options
  let failOnInvalidChain :=
    match options.bind (fun o => o.failOnInvalidChain) with
    | some b => b
    | none => false
  let failOnInvalidTokens :=
    match options.bind (fun o => o.failOnInvalidTokens) with
    | some b => b
    | none => true
  match buildManagers priceFeedInstance failOnInvalidChain
      (options.bind (fun o => o.balancePollInterval)) failOnInvalidTokens config with
  | Except.ok (ms, ws, wires) =>
    Except.ok { managers := ms, priceFeed := priceFeedInstance,
                warnings := ws, wired := wires }
  | Except.error e => Except.error e

/-- String property keys reachable on a JS `Map` instance through its
prototype chain (`Map.prototype` and `Object.prototype`).  The JS `in`
operator applied to a `Map` object tests exactly these (plus symbol keys):
the map's own entries live in an internal slot that `in` never consults. -/
def mapPrototypeStringKeys : List String :=
  ["constructor", "get", "set", "has", "delete", "clear", "forEach", "size",
   "keys", "values", "entries",
   "hasOwnProperty", "isPrototypeOf", "propertyIsEnumerable",
   "toLocaleString", "toString", "valueOf"]

/-- Embedding of the JS expression `chainName in this.errorCounters` at
source line 50, where `this.errorCounters` is a `Map`: the result depends
only on the key being a prototype property name, never on the entries the
handler has stored with `Map.prototype.set`. -/
def jsInMapObject (key : String) : Bool := memb key mapPrototypeStringKeys

/-- Prometheus counter: the metric name it was registered under and its
current value. -/
structure PromCounter where
  name : String
  value : Nat
deriving DecidableEq, Repr

/-- State of the `MultiWalletExporter` error handler: the `errorCounters`
map (insertion order) and the sequence of metric names registered in the
Prometheus registry. -/
structure ExporterState where
  errorCounters : List (String × PromCounter)
  registry : List String
deriving DecidableEq, Repr

/-- Modelled from the spec: `createExporterErrorCounter` from
`./wallet-exporter` (not under `src/`): constructs a fresh zero-valued
counter under the given metric name and registers that name in the
registry. -/
def createExporterErrorCounter (registry : List String) (name : String) :
    PromCounter × List String :=
  ({ name := name, value := 0 }, registry ++ [name])

/-- Increments the counter object stored under the key (the in-place
`counter.inc()` at source line 56); absent keys are left unchanged (in JS
that case would be a `TypeError` on `undefined`). -/
def mapInc (k : String) : List (String × PromCounter) → List (String × PromCounter)
  | [] => []
  | (k2, c) :: rest =>
    if k2 = k then (k2, { c with value := c.value + 1 }) :: rest
    else (k2, c) :: mapInc k rest

/-- The `error` event handler installed by the `MultiWalletExporter`
constructor (source lines 49-57): when `!(chainName in this.errorCounters)`,
create and register a counter named
`chainName + "_" + (options?.prometheus?.errorsName || "errors")` and store
it under the chain; then increment the counter fetched by
`this.errorCounters.get(chainName)!`. -/
def MultiWalletExporter.onError (errorsName : Option String)
    (st : ExporterState) (chainName : String) : ExporterState :=
  let st1 :=
    if !(jsInMapObject chainName) then
      let metricName :=
        chainName ++ "_" ++ (match errorsName with | some s => s | none => "errors")
      let cr := createExporterErrorCounter st.registry metricName
      { errorCounters := mapSet chainName cr.1 st.errorCounters, registry := cr.2 }
    else st
  { st1 with errorCounters := mapInc chainName st1.errorCounters }

/-- Boolean success test on `Except`. -/
def isOkE {A : Type} : Except String A → Bool
  | Except.ok _ => true
  | Except.error _ => false

/-- Block height a manager's driver reports, with a default on failure (only
used to state the all-success case, where the default is never taken). -/
def heightD (m : ChainWalletManager) : Nat :=
  match m.getBlockHeight with
  | Except.ok h => h
  | Except.error _ => 0

theorem mapConcurrent_ok {A B : Type} (g : A → B) (c : Option Nat) (xs : List A) :
    mapConcurrent (fun a => Except.ok (g a)) c xs = Except.ok (xs.map g) := by
  induction xs with
  | nil => rfl
  | cons x xs ih => simp [mapConcurrent, ih]

theorem alookup_updateManager_self (ms : List (String × ChainWalletManager))
    (c : String) (m : ChainWalletManager) (h : (alookup c ms).isSome = true) :
    alookup c (updateManager ms c m) = some m := by
  induction ms with
  | nil => simp [alookup] at h
  | cons p rest ih =>
    by_cases hk : p.1 = c
    · cases p
      simp_all [alookup, updateManager]
    · cases p
      simp_all [alookup, updateManager]

theorem memb_removeAddr (a : String) (l : List String) :
    memb a (removeAddr a l) = false := by
  induction l with
  | nil => rfl
  | cons x xs ih =>
    by_cases hx : x = a
    · simp [removeAddr, hx, ih]
    · simp [removeAddr, memb, hx, ih]

def optsNone : WalletExecuteOptions :=
  { waitToAcquireTimeout := none, leaseTimeout := none }

def sampleDriver : Driver :=
  { getBlockHeight := Except.ok 100,
    pullBalances := Except.ok [],
    pullAtHeight := fun _ => [] }

def downDriver : Driver :=
  { getBlockHeight := Except.error "rpc down",
    pullBalances := Except.error "rpc down",
    pullAtHeight := fun _ => [] }

def sampleManager : ChainWalletManager :=
  { chainName := "ethereum", network := "mainnet", rebalance := none,
    walletOptions := none, walletBalanceConfig := none,
    balancePollInterval := none, failOnInvalidTokens := true,
    wallets := [{ address := "0xA", tokens := [] }], priceFeed := none,
    balances := [("0xA", [])], locked := [], driver := sampleDriver,
    started := true }

def downManager : ChainWalletManager :=
  { sampleManager with
    chainName := "solana", network := "mainnet-beta",
    wallets := [{ address := "0xB", tokens := [] }], balances := [],
    driver := downDriver }

def wmSample : WalletManager := { managers := [("ethereum", sampleManager)] }

def wmMixed : WalletManager :=
  { managers := [("ethereum", sampleManager), ("solana", downManager)] }

def sampleManagerLocked : ChainWalletManager :=
  { sampleManager with locked := ["0xA"] }

def wmSampleLocked : WalletManager :=
  { managers := [("ethereum", sampleManagerLocked)] }

def cfgEmpty : WalletManagerChainConfig :=
  { network := none, chainConfig := none, rebalance := none,
    walletBalanceConfig := none, wallets := [], priceFeedConfig := none }

def optsFailTrue : WalletManagerOptions :=
  { balancePollInterval := none, failOnInvalidChain := some true,
    failOnInvalidTokens := none, priceFeedOptions := none }

def optsFailFalse : WalletManagerOptions :=
  { balancePollInterval := none, failOnInvalidChain := some false,
    failOnInvalidTokens := none, priceFeedOptions := none }

def optsPF : WalletManagerOptions :=
  { balancePollInterval := none, failOnInvalidChain := some true,
    failOnInvalidTokens := none,
    priceFeedOptions := some { enabled := true, scheduled := none } }

/-- C2: evaluation of the constructor on a configuration with the unknown
chain name `notachain`.  With `failOnInvalidChain := true` it throws the
error naming the chain, and with `failOnInvalidChain := false` it warns and
skips — but with no options supplied it also warns and skips instead of
failing: `options?.failOnInvalidChain` is `undefined`, because the zod
default `true` (schema line 226) is never applied by the constructor, which
reads the raw options without parsing.  The claim's default-behaviour
sentence therefore fails on the code. -/
theorem construct_unknownChain_cases :
    WalletManager.construct [("notachain", cfgEmpty)] (some optsFailTrue)
      = Except.error "Invalid chain name: notachain"
    ∧ WalletManager.construct [("notachain", cfgEmpty)] (some optsFailFalse)
      = Except.ok { managers := [], priceFeed := none,
                    warnings := ["Invalid chain name: notachain"], wired := [] }
    ∧ WalletManager.construct [("notachain", cfgEmpty)] none
      = Except.ok { managers := [], priceFeed := none,
                    warnings := ["Invalid chain name: notachain"], wired := [] } :=
  ⟨rfl, rfl, rfl⟩

/-- C10: two consecutive `error` events for the same chain.  Because the
handler's guard `chainName in this.errorCounters` applies the JS `in`
operator to a `Map` — which tests prototype properties, never entries — the
guard is true on every event: the second event registers a second counter
under the same metric name and replaces the stored one, so the observed
count after two events is 1, not 2. -/
theorem errorCounter_recreated_on_every_event :
    jsInMapObject "ethereum" = false
    ∧ (MultiWalletExporter.onError none
        (MultiWalletExporter.onError none
          { errorCounters := [], registry := [] } "ethereum")
        "ethereum").registry = ["ethereum_errors", "ethereum_errors"]
    ∧ alookup "ethereum"
        (MultiWalletExporter.onError none
          (MultiWalletExporter.onError none
            { errorCounters := [], registry := [] } "ethereum")
          "ethereum").errorCounters
      = some { name := "ethereum_errors", value := 1 } := by
  refine ⟨by decide, by decide, by decide⟩

/-- C5: every orchestrator operation addressed at a chain absent from the
manager record — `acquireLock`, `releaseLock`, `getBlockHeight`,
`getChainBalances` — fails with the no-wallets-configured error naming the
chain, before any driver call or lock operation; since the error branch
returns no successor state, the managed state is unchanged. -/
theorem unknownChain_ops_error (wm : WalletManager) (chainName : String)
    (opts : WalletExecuteOptions) (address : String)
    (h : alookup chainName wm.managers = none) :
    wm.acquireLock chainName opts
      = Except.error ("No wallets configured for chain: " ++ chainName)
    ∧ wm.releaseLock chainName address
      = Except.error ("No wallets configured for chain: " ++ chainName)
    ∧ wm.getBlockHeight chainName
      = Except.error ("No wallets configured for chain: " ++ chainName)
    ∧ wm.getChainBalances chainName
      = Except.error ("No wallets configured for chain: " ++ chainName) := by
  unfold WalletManager.acquireLock WalletManager.releaseLock
    WalletManager.getBlockHeight WalletManager.getChainBalances
  rw [h]
  exact ⟨rfl, rfl, rfl, rfl⟩

/-- C5 witness: the chain `fantom` is not configured in `wmSample`, and all
four operations reject it with the expected error. -/
theorem unknownChain_ops_error_witness :
    alookup "fantom" wmSample.managers = none
    ∧ wmSample.acquireLock "fantom" optsNone
      = Except.error "No wallets configured for chain: fantom"
    ∧ wmSample.getChainBalances "fantom"
      = Except.error "No wallets configured for chain: fantom" :=
  ⟨rfl, (unknownChain_ops_error wmSample "fantom" optsNone "0xA" rfl).1,
    (unknownChain_ops_error wmSample "fantom" optsNone "0xA" rfl).2.2.2⟩

/-- Manager state right after the lock registry grants an address. -/
def lockAcq (cm : ChainWalletManager) (a : String) : ChainWalletManager :=
  { cm with locked := a :: cm.locked }

/-- Manager state right after an address is released. -/
def lockRel (cm : ChainWalletManager) (a : String) : ChainWalletManager :=
  { cm with locked := removeAddr a cm.locked }

theorem releaseLock_after_acquire (cm : ChainWalletManager) (a : String) :
    (lockAcq cm a).releaseLock a = Except.ok (lockRel cm a) := by
  unfold ChainWalletManager.releaseLock lockAcq lockRel
  simp [memb, removeAddr]

theorem wm_releaseLock_eq (wm1 : WalletManager) (chainName a : String)
    (cm2 cm3 : ChainWalletManager)
    (hsome : alookup chainName wm1.managers = some cm2)
    (hrel : cm2.releaseLock a = Except.ok cm3) :
    wm1.releaseLock chainName a
      = Except.ok { managers := updateManager wm1.managers chainName cm3 } := by
  unfold WalletManager.releaseLock
  split
  · rename_i heq
    rw [hsome] at heq
    exact Option.noConfusion heq
  · rename_i cm4 heq
    rw [hsome] at heq
    cases Option.some.inj heq
    rw [hrel]

theorem acquireLock_ok_shape (wm : WalletManager) (chainName : String)
    (opts : WalletExecuteOptions) (w : WalletInterface) (wm1 : WalletManager)
    (hacq : wm.acquireLock chainName opts = Except.ok (w, wm1)) :
    ∃ cm, alookup chainName wm.managers = some cm
      ∧ findFree cm.locked (cm.wallets.map (fun x => x.address)) = some w.address
      ∧ wm1 = { managers := updateManager wm.managers chainName (lockAcq cm w.address) } := by
  unfold WalletManager.acquireLock at hacq
  split at hacq
  · exact absurd hacq (by simp)
  · rename_i cm hl
    split at hacq
    · rename_i wallet cm2 heq
      unfold ChainWalletManager.acquireLock at heq
      split at heq
      · rename_i a hf
        simp only [Except.ok.injEq, Prod.mk.injEq] at heq hacq
        obtain ⟨hw1, hc2⟩ := heq
        obtain ⟨hw2, hwm1⟩ := hacq
        subst hc2
        subst hw2
        subst hw1
        subst hwm1
        exact ⟨cm, hl, hf, rfl⟩
      · exact absurd heq (by simp)
    · exact absurd hacq (by simp)

/-- C1: whenever `acquireLock` hands `withWallet` a wallet, the executor's
outcome — normal return or thrown exception — is returned unchanged (so an
exception from `fn` propagates unchanged to the caller), and on either path
the wallet's lock has been released in the final state: the chain's manager
no longer holds the wallet's address.  The `leaseTimeout` field of the
options has no effect on the call. -/
theorem withWallet_releases_and_propagates (wm : WalletManager)
    (chainName : String) (opts : WalletExecuteOptions)
    (fn : WalletInterface → Except String Unit)
    (w : WalletInterface) (wm1 : WalletManager)
    (hacq : wm.acquireLock chainName opts = Except.ok (w, wm1)) :
    (wm.withWallet chainName fn opts).1 = fn w
    ∧ (∀ m2, alookup chainName (wm.withWallet chainName fn opts).2.managers
          = some m2 → memb w.address m2.locked = false)
    ∧ (∀ t, wm.withWallet chainName fn { opts with leaseTimeout := t }
        = wm.withWallet chainName fn opts) := by
  have h3 : ∀ t, wm.withWallet chainName fn { opts with leaseTimeout := t }
      = wm.withWallet chainName fn opts := fun _ => rfl
  obtain ⟨cm, hl, hf, hwm1⟩ := acquireLock_ok_shape wm chainName opts w wm1 hacq
  have hsome1 : (alookup chainName wm.managers).isSome = true := by
    rw [hl]; rfl
  have hsome : alookup chainName wm1.managers = some (lockAcq cm w.address) := by
    rw [hwm1]
    exact alookup_updateManager_self wm.managers chainName _ hsome1
  have hrel : wm1.releaseLock chainName w.address
      = Except.ok { managers :=
          updateManager wm1.managers chainName (lockRel cm w.address) } :=
    wm_releaseLock_eq wm1 chainName w.address _ _ hsome
      (releaseLock_after_acquire cm w.address)
  have hww : wm.withWallet chainName fn opts
      = (fn w, { managers :=
          updateManager wm1.managers chainName (lockRel cm w.address) }) := by
    unfold WalletManager.withWallet
    split
    · rename_i e heq
      rw [hacq] at heq
      exact Except.noConfusion heq
    · rename_i wallet wm1b heq
      rw [hacq] at heq
      simp only [Except.ok.injEq, Prod.mk.injEq] at heq
      obtain ⟨hwb, hw1b⟩ := heq
      subst hwb
      subst hw1b
      rw [hrel]
  refine ⟨by rw [hww], ?_, h3⟩
  intro m2 hm2
  rw [hww] at hm2
  simp only at hm2
  rw [alookup_updateManager_self wm1.managers chainName _ (by rw [hsome]; rfl)] at hm2
  cases Option.some.inj hm2
  exact memb_removeAddr w.address cm.locked

/-- C1 witness: on the one-wallet chain `ethereum`, a throwing executor has
its error propagated and leaves `0xA` unlocked. -/
theorem withWallet_releases_witness :
    (wmSample.withWallet "ethereum" (fun _ => Except.error "X") optsNone).1
      = Except.error "X"
    ∧ (∀ m2, alookup "ethereum"
          (wmSample.withWallet "ethereum" (fun _ => Except.error "X") optsNone).2.managers
          = some m2 → memb "0xA" m2.locked = false) :=
  ⟨(withWallet_releases_and_propagates wmSample "ethereum" optsNone
      (fun _ => Except.error "X") { address := "0xA" } wmSampleLocked rfl).1,
   (withWallet_releases_and_propagates wmSample "ethereum" optsNone
      (fun _ => Except.error "X") { address := "0xA" } wmSampleLocked rfl).2.1⟩

theorem heights_mapConcurrent_ok (c : Option Nat)
    (ms : List (String × ChainWalletManager))
    (h : ∀ p ∈ ms, isOkE p.2.getBlockHeight = true) :
    mapConcurrent
      (fun p => match p.2.getBlockHeight with
        | Except.ok blockHeight => Except.ok (p.1, blockHeight)
        | Except.error err =>
          Except.error ("No block height found for chain: " ++ p.1 ++ ", error: " ++ err))
      c ms
      = Except.ok (ms.map (fun p => (p.1, heightD p.2))) := by
  induction ms with
  | nil => rfl
  | cons q rest ih =>
    have hq : isOkE q.2.getBlockHeight = true := h q (List.mem_cons_self q rest)
    have hrest := ih (fun p hp => h p (List.mem_cons_of_mem q hp))
    cases hgb : q.2.getBlockHeight with
    | ok n => simp [mapConcurrent, hgb, hrest, heightD]
    | error e => rw [hgb] at hq; exact absurd hq (by simp [isOkE])

theorem heights_mapConcurrent_error (c : Option Nat)
    (ms : List (String × ChainWalletManager)) (c0 : String)
    (m0 : ChainWalletManager) (err : String)
    (hmem : (c0, m0) ∈ ms) (herr : m0.getBlockHeight = Except.error err) :
    ∃ c2 m2 err2, (c2, m2) ∈ ms ∧ m2.getBlockHeight = Except.error err2
      ∧ mapConcurrent
          (fun p => match p.2.getBlockHeight with
            | Except.ok blockHeight => Except.ok (p.1, blockHeight)
            | Except.error err =>
              Except.error ("No block height found for chain: " ++ p.1 ++ ", error: " ++ err))
          c ms
        = Except.error ("No block height found for chain: " ++ c2 ++ ", error: " ++ err2) := by
  induction ms with
  | nil => cases hmem
  | cons q rest ih =>
    cases hgb : q.2.getBlockHeight with
    | error e =>
      refine ⟨q.1, q.2, e, List.mem_cons_self q rest, hgb, ?_⟩
      simp [mapConcurrent, hgb]
    | ok n =>
      have hmem2 : (c0, m0) ∈ rest := by
        cases hmem with
        | head =>
          have hgb2 : m0.getBlockHeight = Except.ok n := hgb
          rw [herr] at hgb2
          exact Except.noConfusion hgb2
        | tail _ h => exact h
      obtain ⟨c2, m2, err2, hm2, he2, heq⟩ := ih hmem2
      refine ⟨c2, m2, err2, List.mem_cons_of_mem q hm2, he2, ?_⟩
      simp [mapConcurrent, hgb, heq]

/-- C3: if every managed chain's driver reports a height,
`getBlockHeightForAllSupportedChains` resolves to a record holding that
height for every managed chain; if any managed chain's `getBlockHeight`
fails, the whole call rejects — no partial result — with an error that names
a failing chain and wraps that chain's underlying driver error. -/
theorem getBlockHeightForAllSupportedChains_spec (wm : WalletManager) :
    ((∀ p ∈ wm.managers, isOkE p.2.getBlockHeight = true) →
      (wm.getBlockHeightForAllSupportedChains).value
        = Except.ok (wm.managers.map (fun p => (p.1, heightD p.2))))
    ∧ (∀ c0 m0 err, (c0, m0) ∈ wm.managers →
        m0.getBlockHeight = Except.error err →
        ∃ c2 m2 err2, (c2, m2) ∈ wm.managers
          ∧ m2.getBlockHeight = Except.error err2
          ∧ (wm.getBlockHeightForAllSupportedChains).value
            = Except.error
                ("No block height found for chain: " ++ c2 ++ ", error: " ++ err2)) := by
  constructor
  · intro h
    exact heights_mapConcurrent_ok (some wm.managers.length) wm.managers h
  · intro c0 m0 err hmem herr
    exact heights_mapConcurrent_error (some wm.managers.length) wm.managers c0 m0 err
      hmem herr

/-- C3 witness: with both drivers healthy the call returns every height; with
the `solana` driver down the whole call rejects with the wrapping error. -/
theorem getBlockHeight_all_witness :
    ((wmSample.getBlockHeightForAllSupportedChains).value
      = Except.ok [("ethereum", 100)])
    ∧ (∃ c2 m2 err2, (c2, m2) ∈ wmMixed.managers
        ∧ m2.getBlockHeight = Except.error err2
        ∧ (wmMixed.getBlockHeightForAllSupportedChains).value
          = Except.error
              ("No block height found for chain: " ++ c2 ++ ", error: " ++ err2)) :=
  ⟨(getBlockHeightForAllSupportedChains_spec wmSample).1
    (by
      intro p hp
      have hp2 : p ∈ [("ethereum", sampleManager)] := hp
      rw [List.mem_singleton] at hp2
      subst hp2
      rfl),
   (getBlockHeightForAllSupportedChains_spec wmMixed).2 "solana" downManager "rpc down"
    (by
      have h2 : ("solana", downManager)
          ∈ [("ethereum", sampleManager), ("solana", downManager)] :=
        List.mem_cons_of_mem _ (List.mem_cons_self _ _)
      exact h2)
    rfl⟩

theorem getAllBalances_value (wm : WalletManager) :
    (wm.getAllBalances).value
      = Except.ok (wm.managers.map (fun p => (p.1, p.2.getBalances))) := by
  unfold WalletManager.getAllBalances WalletManager.mapToChains mapConcurrentFx
  exact mapConcurrent_ok (fun p => (p.1, p.2.getBalances)) none wm.managers

/-- C4: `getAllBalances` resolves — for any manager record — to the mapping
with exactly one entry per managed chain, in manager order and with no other
entries, each entry being that chain manager's in-memory snapshot via
`getBalances` (a pure read of the balance table, no driver I/O); when the
managed chain names are distinct, so are the keys of the result. -/
theorem getAllBalances_fanout (wm : WalletManager) :
    (wm.getAllBalances).value
      = Except.ok (wm.managers.map (fun p => (p.1, p.2.getBalances)))
    ∧ (∀ r, (wm.getAllBalances).value = Except.ok r →
        r.map (fun q => q.1) = wm.managers.map (fun p => p.1)
        ∧ ((wm.managers.map (fun p => p.1)).Nodup → (r.map (fun q => q.1)).Nodup)) := by
  have h1 := getAllBalances_value wm
  refine ⟨h1, ?_⟩
  intro r hr
  rw [h1] at hr
  cases Except.ok.inj hr
  have hkeys : (wm.managers.map (fun p => (p.1, p.2.getBalances))).map (fun q => q.1)
      = wm.managers.map (fun p => p.1) := by
    rw [List.map_map]
    rfl
  exact ⟨hkeys, fun hnd => by rw [hkeys]; exact hnd⟩

/-- C4 witness: on the two-chain record the result holds exactly the two
configured chains with their snapshots, and the key list is duplicate-free. -/
theorem getAllBalances_fanout_witness :
    (wmMixed.getAllBalances).value
      = Except.ok [("ethereum", [("0xA", [])]), ("solana", [])]
    ∧ ([("ethereum", [("0xA", ([] : List WalletBalance))]), ("solana", [])].map
        (fun q => q.1)).Nodup :=
  ⟨(getAllBalances_fanout wmMixed).1,
   ((getAllBalances_fanout wmMixed).2 [("ethereum", [("0xA", [])]), ("solana", [])]
      (getAllBalances_fanout wmMixed).1).2 (by decide)⟩

theorem pull_validate_error (wm : WalletManager) (b : List (String × Nat))
    (e : String) (he : wm.validateBlockHeightByChain b = Except.error e) :
    (wm.pullBalancesAtBlockHeight (some b)).value = Except.error e := by
  simp [WalletManager.pullBalancesAtBlockHeight, he]

theorem validate_unknown_key (wm : WalletManager) (b : List (String × Nat))
    (h : ∃ p, p ∈ b ∧ alookup p.1 wm.managers = none) :
    ∃ c, alookup c wm.managers = none
      ∧ wm.validateBlockHeightByChain b
        = Except.error ("No wallets configured for chain: " ++ c) := by
  induction b with
  | nil =>
    obtain ⟨p, hp, _⟩ := h
    cases hp
  | cons q rest ih =>
    obtain ⟨qc, qh⟩ := q
    cases hq : alookup qc wm.managers with
    | none =>
      refine ⟨qc, hq, ?_⟩
      simp [WalletManager.validateBlockHeightByChain, hq]
    | some m =>
      have h2 : ∃ p, p ∈ rest ∧ alookup p.1 wm.managers = none := by
        obtain ⟨p, hp, hnone⟩ := h
        cases hp with
        | head =>
          rw [hq] at hnone
          exact Option.noConfusion hnone
        | tail _ ht => exact ⟨p, ht, hnone⟩
      obtain ⟨c, hc, heq⟩ := ih h2
      exact ⟨c, hc, by simp [WalletManager.validateBlockHeightByChain, hq, heq]⟩

theorem fanoutAtHeights_value (wm : WalletManager) (b : List (String × Nat)) :
    (wm.fanoutAtHeights b).value
      = Except.ok (wm.managers.map (fun p =>
          (p.1, (p.2.pullBalancesAtBlockHeight (alookup p.1 b)).1))) := by
  unfold WalletManager.fanoutAtHeights mapConcurrentFx
  exact mapConcurrent_ok
    (fun p => (p.1, (p.2.pullBalancesAtBlockHeight (alookup p.1 b)).1)) none wm.managers

theorem pull_validate_ok (wm : WalletManager) (b : List (String × Nat))
    (hok : wm.validateBlockHeightByChain b = Except.ok ()) :
    (wm.pullBalancesAtBlockHeight (some b)).value
      = Except.ok (wm.managers.map (fun p =>
          (p.1, (p.2.pullBalancesAtBlockHeight (alookup p.1 b)).1))) := by
  simp [WalletManager.pullBalancesAtBlockHeight, hok, fanoutAtHeights_value]

theorem pull_none_ok (wm : WalletManager) (hs : List (String × Nat))
    (h : (wm.getBlockHeightForAllSupportedChains).value = Except.ok hs) :
    (wm.pullBalancesAtBlockHeight none).value
      = Except.ok (wm.managers.map (fun p =>
          (p.1, (p.2.pullBalancesAtBlockHeight (alookup p.1 hs)).1))) := by
  simp [WalletManager.pullBalancesAtBlockHeight, h, fanoutAtHeights_value]

theorem pull_none_error (wm : WalletManager) (e : String)
    (h : (wm.getBlockHeightForAllSupportedChains).value = Except.error e) :
    (wm.pullBalancesAtBlockHeight none).value = Except.error e := by
  simp [WalletManager.pullBalancesAtBlockHeight, h]

/-- C6: `pullBalancesAtBlockHeight` with a heights record validates every
chain key against the manager record and fails on any unknown key, with the
validation error propagated; with all keys known it queries each managed
chain at its corresponding height.  Without a record it first calls
`getBlockHeightForAllSupportedChains`, propagating its failure or fanning
out at its heights.  It returns a fresh mapping and updates no manager's
persistent snapshot: the chain-level query leaves the manager unchanged. -/
theorem pullBalancesAtBlockHeight_spec (wm : WalletManager)
    (b : List (String × Nat)) :
    (∀ e, wm.validateBlockHeightByChain b = Except.error e →
      (wm.pullBalancesAtBlockHeight (some b)).value = Except.error e)
    ∧ ((∃ p, p ∈ b ∧ alookup p.1 wm.managers = none) →
        ∃ c, alookup c wm.managers = none
          ∧ wm.validateBlockHeightByChain b
            = Except.error ("No wallets configured for chain: " ++ c))
    ∧ (wm.validateBlockHeightByChain b = Except.ok () →
        (wm.pullBalancesAtBlockHeight (some b)).value
          = Except.ok (wm.managers.map (fun p =>
              (p.1, (p.2.pullBalancesAtBlockHeight (alookup p.1 b)).1))))
    ∧ (∀ hs, (wm.getBlockHeightForAllSupportedChains).value = Except.ok hs →
        (wm.pullBalancesAtBlockHeight none).value
          = Except.ok (wm.managers.map (fun p =>
              (p.1, (p.2.pullBalancesAtBlockHeight (alookup p.1 hs)).1))))
    ∧ (∀ e, (wm.getBlockHeightForAllSupportedChains).value = Except.error e →
        (wm.pullBalancesAtBlockHeight none).value = Except.error e)
    ∧ (∀ m h2, (ChainWalletManager.pullBalancesAtBlockHeight m h2).2 = m) :=
  ⟨fun e he => pull_validate_error wm b e he,
   fun h => validate_unknown_key wm b h,
   fun hok => pull_validate_ok wm b hok,
   fun hs h => pull_none_ok wm hs h,
   fun e h => pull_none_error wm e h,
   fun _ _ => rfl⟩

/-- C6 witness: an unknown key `fantom` fails validation and the call; a
valid record queries `ethereum` at the given height; with no record the
fetched height is used. -/
theorem pullBalancesAtBlockHeight_witness :
    (wmSample.pullBalancesAtBlockHeight (some [("fantom", 1)])).value
      = Except.error "No wallets configured for chain: fantom"
    ∧ (wmSample.pullBalancesAtBlockHeight (some [("ethereum", 5)])).value
      = Except.ok [("ethereum", [])]
    ∧ (wmSample.pullBalancesAtBlockHeight none).value
      = Except.ok [("ethereum", [])] :=
  ⟨(pullBalancesAtBlockHeight_spec wmSample [("fantom", 1)]).1 _ rfl,
   (pullBalancesAtBlockHeight_spec wmSample [("ethereum", 5)]).2.2.1 rfl,
   (pullBalancesAtBlockHeight_spec wmSample []).2.2.2.1 [("ethereum", 100)] rfl⟩

/-- C8: `getBlockHeightForAllSupportedChains` invokes its fanout with a
concurrency bound equal to the number of managed chains, while
`getAllBalances`, `pullBalances` and the fanout of
`pullBalancesAtBlockHeight` omit the bound (`none`), leaving the
configuration-defined default; the heightless variant first performs the
height fanout (bound = number of chains) and then its own default-bound
fanout. -/
theorem fanout_concurrency_bounds (wm : WalletManager)
    (b : List (String × Nat)) :
    (wm.getBlockHeightForAllSupportedChains).calls = [some wm.managers.length]
    ∧ (wm.getAllBalances).calls = [none]
    ∧ (wm.pullBalances).calls = [none]
    ∧ (wm.validateBlockHeightByChain b = Except.ok () →
        (wm.pullBalancesAtBlockHeight (some b)).calls = [none])
    ∧ (∀ hs, (wm.getBlockHeightForAllSupportedChains).value = Except.ok hs →
        (wm.pullBalancesAtBlockHeight none).calls
          = [some wm.managers.length, none]) := by
  refine ⟨rfl, rfl, rfl, ?_, ?_⟩
  · intro hok
    simp [WalletManager.pullBalancesAtBlockHeight, hok,
      WalletManager.fanoutAtHeights, mapConcurrentFx]
  · intro hs h
    simp only [WalletManager.getBlockHeightForAllSupportedChains,
      mapConcurrentFx] at h
    simp [WalletManager.pullBalancesAtBlockHeight,
      WalletManager.fanoutAtHeights, mapConcurrentFx,
      WalletManager.getBlockHeightForAllSupportedChains, h]

/-- C8 witness: the two-chain record requests bound 2 for the height fanout;
the height-record call requests the default; the heightless call requests
the height bound and then the default. -/
theorem fanout_concurrency_bounds_witness :
    (wmMixed.getBlockHeightForAllSupportedChains).calls = [some 2]
    ∧ (wmSample.pullBalancesAtBlockHeight (some [("ethereum", 5)])).calls = [none]
    ∧ (wmSample.pullBalancesAtBlockHeight none).calls = [some 1, none] :=
  ⟨(fanout_concurrency_bounds wmMixed []).1,
   (fanout_concurrency_bounds wmSample [("ethereum", 5)]).2.2.2.1 rfl,
   (fanout_concurrency_bounds wmSample []).2.2.2.2 [("ethereum", 100)] rfl⟩

theorem buildManagers_priceFeed (pf : Option PriceFeed) (foi : Bool)
    (bpi : Option Nat) (fot : Bool)
    (cfg : List (String × WalletManagerChainConfig))
    (ms : List (String × ChainWalletManager)) (ws : List String)
    (wires : List (String × String))
    (h : buildManagers pf foi bpi fot cfg = Except.ok (ms, ws, wires)) :
    ∀ p ∈ ms, p.2.priceFeed = pf := by
  induction cfg generalizing ms ws wires with
  | nil =>
    simp only [buildManagers, Except.ok.injEq, Prod.mk.injEq] at h
    obtain ⟨h1, _, _⟩ := h
    subst h1
    intro p hp
    cases hp
  | cons q rest ih =>
    obtain ⟨qc, qcc⟩ := q
    unfold buildManagers at h
    split at h
    · split at h
      · rename_i ms2 ws2 wires2 hrec
        simp only [Except.ok.injEq, Prod.mk.injEq] at h
        obtain ⟨h1, _, _⟩ := h
        subst h1
        intro p hp
        cases hp with
        | head => rfl
        | tail _ ht => exact ih ms2 ws2 wires2 hrec p ht
      · exact absurd h (by simp)
    · split at h
      · exact absurd h (by simp)
      · split at h
        · rename_i ms2 ws2 wires2 hrec
          simp only [Except.ok.injEq, Prod.mk.injEq] at h
          obtain ⟨h1, _, _⟩ := h
          subst h1
          intro p hp
          exact ih ms2 ws2 wires2 hrec p hp
        · exact absurd h (by simp)

theorem buildManagers_wires (pf : Option PriceFeed) (foi : Bool)
    (bpi : Option Nat) (fot : Bool)
    (cfg : List (String × WalletManagerChainConfig))
    (ms : List (String × ChainWalletManager)) (ws : List String)
    (wires : List (String × String))
    (h : buildManagers pf foi bpi fot cfg = Except.ok (ms, ws, wires)) :
    ∀ c cc, (c, cc) ∈ cfg → isChain c = true →
      ((c, cc.network.getD (getDefaultNetwork c)) ∈ wires
       ∧ ∃ m, (c, m) ∈ ms ∧ m.started = true) := by
  induction cfg generalizing ms ws wires with
  | nil =>
    intro c cc hmem
    cases hmem
  | cons q rest ih =>
    obtain ⟨qc, qcc⟩ := q
    intro c cc hmem hvalid
    unfold buildManagers at h
    split at h
    · split at h
      · rename_i ms2 ws2 wires2 hrec
        simp only [Except.ok.injEq, Prod.mk.injEq] at h
        obtain ⟨h1, h2, h3⟩ := h
        subst h1
        subst h3
        cases hmem with
        | head =>
          exact ⟨List.mem_cons_self _ _, ⟨_, List.mem_cons_self _ _, rfl⟩⟩
        | tail _ ht =>
          obtain ⟨hw, m, hm, hs⟩ := ih ms2 ws2 wires2 hrec c cc ht hvalid
          exact ⟨List.mem_cons_of_mem _ hw, m, List.mem_cons_of_mem _ hm, hs⟩
      · exact absurd h (by simp)
    · rename_i hinv
      split at h
      · exact absurd h (by simp)
      · split at h
        · rename_i ms2 ws2 wires2 hrec
          simp only [Except.ok.injEq, Prod.mk.injEq] at h
          obtain ⟨h1, h2, h3⟩ := h
          subst h1
          subst h3
          cases hmem with
          | head => exact absurd hvalid hinv
          | tail _ ht => exact ih ms2 ws2 wires2 hrec c cc ht hvalid
        · exact absurd h (by simp)

/-- C7: whenever construction succeeds, a single price-feed value is built
and every constructed chain manager holds exactly that value: none when
`priceFeedOptions` is absent or `enabled` is not set, a `ScheduledPriceFeed`
over the prepared token set when `scheduled.enabled` is set, and an
`OnDemandPriceFeed` otherwise. -/
theorem priceFeed_single_shared (config : List (String × WalletManagerChainConfig))
    (options : Option WalletManagerOptions) (st : WalletManagerState)
    (hok : WalletManager.construct config options = Except.ok st) :
    st.priceFeed = selectPriceFeed config options
    ∧ (∀ p ∈ st.managers, p.2.priceFeed = st.priceFeed)
    ∧ (match options.bind (fun o => o.priceFeedOptions) with
       | none => st.priceFeed = none
       | some pfo =>
         if pfo.enabled then
           if (match pfo.scheduled with | some s => s.enabled | none => false) then
             st.priceFeed
               = some (PriceFeed.scheduled (preparePriceFeedConfig config) pfo)
           else st.priceFeed = some (PriceFeed.onDemand (preparePriceFeedConfig config))
         else st.priceFeed = none) := by
  simp only [WalletManager.construct] at hok
  split at hok
  · rename_i ms ws wires hbuild
    have hst := Except.ok.inj hok
    subst hst
    refine ⟨rfl, ?_, ?_⟩
    · exact buildManagers_priceFeed _ _ _ _ config ms ws wires hbuild
    · cases hpfo : options.bind (fun o => o.priceFeedOptions) with
      | none => simp [selectPriceFeed, hpfo]
      | some pfo =>
        by_cases he : pfo.enabled = true
        · by_cases hsch :
            (match pfo.scheduled with | some s => s.enabled | none => false) = true
          · simp [selectPriceFeed, hpfo, he, hsch]
          · simp [selectPriceFeed, hpfo, he, hsch]
        · simp [selectPriceFeed, hpfo, he]
  · exact absurd hok (by simp)

def stPF : WalletManagerState :=
  { managers := [("ethereum",
      mkChainManager "ethereum" "mainnet" cfgEmpty none true
        (some (PriceFeed.onDemand [])))],
    priceFeed := some (PriceFeed.onDemand []),
    warnings := [], wired := [("ethereum", "mainnet")] }

/-- C7 witness: with `enabled` set and no `scheduled` block, construction
over one valid chain yields the on-demand feed, held by the chain manager. -/
theorem priceFeed_single_shared_witness :
    WalletManager.construct [("ethereum", cfgEmpty)] (some optsPF) = Except.ok stPF
    ∧ stPF.priceFeed = some (PriceFeed.onDemand
        (preparePriceFeedConfig [("ethereum", cfgEmpty)]))
    ∧ (∀ p ∈ stPF.managers, p.2.priceFeed = stPF.priceFeed) :=
  ⟨rfl,
   (priceFeed_single_shared [("ethereum", cfgEmpty)] (some optsPF) stPF rfl).2.2,
   (priceFeed_single_shared [("ethereum", cfgEmpty)] (some optsPF) stPF rfl).2.1⟩

/-- C9: whenever construction succeeds, every valid configured chain has been
wired (its chain/network pair is in the wiring list) and its manager stored
and started; the installed wiring re-emits a chain `balances` event as
`balances(chainName, network, new, previous)` on the orchestrator bus and a
chain `error` event as `error(error, chainName)`. -/
theorem construct_wires_and_starts (config : List (String × WalletManagerChainConfig))
    (options : Option WalletManagerOptions) (st : WalletManagerState)
    (hok : WalletManager.construct config options = Except.ok st)
    (chainName : String) (cc : WalletManagerChainConfig)
    (hmem : (chainName, cc) ∈ config) (hvalid : isChain chainName = true) :
    ((chainName, cc.network.getD (getDefaultNetwork chainName)) ∈ st.wired)
    ∧ (∃ m, (chainName, m) ∈ st.managers ∧ m.started = true)
    ∧ (∀ n o, wireChainEvent chainName (cc.network.getD (getDefaultNetwork chainName))
        (ChainEvent.balances n o)
        = [OrchEvent.balances chainName (cc.network.getD (getDefaultNetwork chainName)) n o])
    ∧ (∀ e, wireChainEvent chainName (cc.network.getD (getDefaultNetwork chainName))
        (ChainEvent.error e)
        = [OrchEvent.error e chainName]) := by
  simp only [WalletManager.construct] at hok
  split at hok
  · rename_i ms ws wires hbuild
    have hst := Except.ok.inj hok
    subst hst
    obtain ⟨hw, hm⟩ :=
      buildManagers_wires _ _ _ _ config ms ws wires hbuild chainName cc hmem hvalid
    exact ⟨hw, hm, fun _ _ => rfl, fun _ => rfl⟩
  · exact absurd hok (by simp)

def stW : WalletManagerState :=
  { managers := [("ethereum",
      mkChainManager "ethereum" "mainnet" cfgEmpty none true none)],
    priceFeed := none, warnings := [], wired := [("ethereum", "mainnet")] }

/-- C9 witness: constructing with the single valid chain `ethereum` wires and
starts it, and the wiring translates the two re-emitted events as stated. -/
theorem construct_wires_and_starts_witness :
    WalletManager.construct [("ethereum", cfgEmpty)] none = Except.ok stW
    ∧ ("ethereum", "mainnet") ∈ stW.wired
    ∧ (∀ e, wireChainEvent "ethereum" "mainnet" (ChainEvent.error e)
        = [OrchEvent.error e "ethereum"]) :=
  ⟨rfl,
   (construct_wires_and_starts [("ethereum", cfgEmpty)] none stW rfl
      "ethereum" cfgEmpty (List.mem_singleton.mpr rfl) rfl).1,
   (construct_wires_and_starts [("ethereum", cfgEmpty)] none stW rfl
      "ethereum" cfgEmpty (List.mem_singleton.mpr rfl) rfl).2.2.2⟩
